import Mathlib

/-!
Verification development for the flow-go consensus/verification core.

Shallow embedding of:
* the seal-mempool anti-equivocation wrapper (`approvals.IncorporatedResultSeals`),
* the chunk verifier (`chunks.ChunkVerifier`),
* the chunk data pack requester (`requester.Engine`),
* the consensus payload builder's seal and receipt selection (modelled from the
  spec, since the builder implementation is only represented by its test suite).

Identifiers (32-byte hashes in the source) are modelled as `Nat`; register
keys and values as `Nat`; state commitments as the canonical content of the
partial trie (a root is a function of trie content, so content stands in for
the commitment). External collaborators (receipts store, partial ledger,
virtual machine, network conduit) are modelled through their interfaces, as
the spec fixes them.
-/

namespace Approvals

/-- An execution receipt, reduced to the fields the anti-equivocation gate
reads: the executor identity and the identifier of the committed result. -/
structure AExecutionReceipt where
  executorID : Nat
  resultID : Nat
deriving DecidableEq, Repr

/-- An incorporated result: the executed block and the result identifier. -/
structure AIncorporatedResult where
  blockID : Nat
  resultID : Nat
deriving DecidableEq, Repr

/-- An incorporated result seal, indexed by its identifier. -/
structure AIncorporatedResultSeal where
  sealID : Nat
  incorporatedResult : AIncorporatedResult
deriving DecidableEq, Repr

/-- The receipts store: `ByBlockID` either fails (storage error) or returns
the receipts known for a block. -/
def ReceiptsDB : Type := Nat → Except Unit (List AExecutionReceipt)

/-- Number of distinct executor identities among the receipts committing to
`resultID` (the source groups receipts by result ID, then by executor ID, and
counts the groups). -/
def distinctExecutorCount (receipts : List AExecutionReceipt) (resultID : Nat) : Nat :=
  (((receipts.filter (fun r => r.resultID = resultID)).map (fun r => r.executorID)).dedup).length

/-- `IncorporatedResultSeals.resultHasMultipleReceipts`: fetch the receipts
for the result's block; on a storage error return `false`; otherwise check
that at least two distinct executors committed to the result. -/
def resultHasMultipleReceipts (receiptsDB : ReceiptsDB) (ir : AIncorporatedResult) : Bool :=
  match receiptsDB ir.blockID with
  | Except.error _ => false
  | Except.ok receipts => decide (2 ≤ distinctExecutorCount receipts ir.resultID)

/-- The wrapped seal mempool's `ByID`, modelled as lookup in a list of seals. -/
def sealsByID (pool : List AIncorporatedResultSeal) (id : Nat) : Option AIncorporatedResultSeal :=
  pool.find? (fun s => s.sealID = id)

/-- `IncorporatedResultSeals.ByID`: look the seal up in the wrapped pool and
return it only when `resultHasMultipleReceipts` holds for its incorporated
result. -/
def ByID (pool : List AIncorporatedResultSeal) (receiptsDB : ReceiptsDB) (id : Nat) :
    Option AIncorporatedResultSeal :=
  match sealsByID pool id with
  | none => none
  | some irs =>
    if resultHasMultipleReceipts receiptsDB irs.incorporatedResult then some irs else none

end Approvals

namespace Chunks

/-- Register keys, as produced by `RegisterIDToKey`. -/
abbrev Key := Nat

/-- Register values. -/
abbrev Value := Nat

/-- A state commitment, modelled as the content of the (partial) trie it
commits to: the Merkle root is a function of the content, so content equality
stands for root equality. -/
abbrev StateCommitment := List (Key × Value)

/-- A chunk data pack: the declared start state, together with the partial
trie the proof expands to. `proofOk` models whether `partial.NewLedger`
accepts the proof against the start state (a malformed or inconsistent proof
makes it fail). -/
structure ChunkDataPack where
  proofOk : Bool
  proof : List (Key × Value)
deriving DecidableEq, Repr

/-- One observable interaction of a transaction with the chunk view: a
register read or a register write. -/
inductive Op where
  | read (k : Key)
  | write (k : Key) (v : Value)
deriving DecidableEq, Repr

/-- A transaction, reduced to its observable effect on the chunk view.
`vmErr` models `vm.Run` returning a (non-deterministic infrastructure)
error. -/
structure Transaction where
  vmErr : Bool
  ops : List Op
deriving DecidableEq, Repr

/-- State of the chunk view during execution: the accumulated register
updates (delta) and the set of unknown registers touched (reads that reached
the partial trie on a path not covered by the proof). -/
structure ExecState where
  delta : List (Key × Value)
  unknown : List Key
deriving DecidableEq, Repr

/-- Whether a key is covered by the partial trie built from the proof. -/
def coveredBy (proof : List (Key × Value)) (k : Key) : Bool :=
  proof.any (fun e => e.1 = k)

/-- Write `v` at key `k` in the delta, replacing any earlier write. -/
def setInDelta (delta : List (Key × Value)) (k : Key) (v : Value) : List (Key × Value) :=
  if delta.any (fun e => e.1 = k) then
    delta.map (fun e => if e.1 = k then (k, v) else e)
  else
    delta ++ [(k, v)]

/-- Effect of one operation on the chunk view. A read is served from the
delta if previously written; otherwise it goes through `getRegister`, which
records the key in the unknown-register-touch set when the proof does not
cover it (returning the empty value rather than an error). -/
def runOp (covered : Key → Bool) (s : ExecState) : Op → ExecState
  | Op.read k =>
    if s.delta.any (fun e => e.1 = k) then s
    else if covered k then s
    else if k ∈ s.unknown then s
    else { s with unknown := s.unknown ++ [k] }
  | Op.write k v => { s with delta := setInDelta s.delta k v }

/-- Run one transaction's operations on the chunk view (the child view is
always merged back, so the effect is sequential). -/
def runTx (covered : Key → Bool) (s : ExecState) (tx : Transaction) : ExecState :=
  tx.ops.foldl (runOp covered) s

/-- Execute all transactions of the chunk in index order. A VM error on any
transaction aborts the whole verification with an internal error (`none`). -/
def runTransactions (covered : Key → Bool) (txs : List Transaction) : Option ExecState :=
  txs.foldl
    (fun acc tx =>
      match acc with
      | none => none
      | some s => if tx.vmErr then none else some (runTx covered s tx))
    (some { delta := [], unknown := [] })

/-- `psmt.Set`: apply the register updates to the partial trie. Updates on
paths not covered by the proof fail with the list of missing keys; otherwise
the new root (content) is returned. -/
def psmtSet (proof : List (Key × Value)) (updates : List (Key × Value)) :
    Except (List Key) StateCommitment :=
  let missing := (updates.map (fun e => e.1)).filter (fun k => ¬ coveredBy proof k)
  if missing = [] then
    Except.ok (updates.foldl (fun es e => setInDelta es e.1 e.2) proof)
  else
    Except.error missing

/-- The chunk fault taxonomy produced by the verifier. -/
inductive ChunkFault where
  | invalidVerifiableChunk (chIndex : Nat) (execResID : Nat)
  | missingRegisterTouch (keys : List Key) (chIndex : Nat) (execResID : Nat)
  | nonMatchingFinalState (expected got : StateCommitment) (chIndex : Nat) (execResID : Nat)
deriving DecidableEq, Repr

/-- Outcome of a chunk verification, mirroring the Go triple
`(spock, fault, err)` in which exactly one component is non-nil. -/
inductive VerifyResult where
  | ok (spock : List (Key × Value))
  | fault (f : ChunkFault)
  | internalError
deriving DecidableEq, Repr

/-- A verifiable chunk: the system-chunk flag, the chunk index and result
identifier, the chunk data pack, the collection's transactions, and the
declared end state. -/
structure VerifiableChunkData where
  isSystemChunk : Bool
  chIndex : Nat
  execResID : Nat
  chunkDataPack : Option ChunkDataPack
  transactions : List Transaction
  endState : StateCommitment
deriving DecidableEq, Repr

/-- `ChunkVerifier.verifyTransactionsInContext`: build the partial trie from
the chunk data pack, execute the transactions against the chunk view, fault
on unknown register touches, apply the delta to the partial trie, and compare
the recomputed root with the declared end state. -/
def verifyTransactionsInContext (chIndex execResID : Nat)
    (chunkDataPack : Option ChunkDataPack) (txs : List Transaction)
    (endState : StateCommitment) : VerifyResult :=
  match chunkDataPack with
  | none => VerifyResult.internalError
  | some cdp =>
    if cdp.proofOk = false then
      VerifyResult.fault (ChunkFault.invalidVerifiableChunk chIndex execResID)
    else
      match runTransactions (coveredBy cdp.proof) txs with
      | none => VerifyResult.internalError
      | some s =>
        if s.unknown ≠ [] then
          VerifyResult.fault (ChunkFault.missingRegisterTouch s.unknown chIndex execResID)
        else
          match psmtSet cdp.proof s.delta with
          | Except.error keys =>
            VerifyResult.fault (ChunkFault.missingRegisterTouch keys chIndex execResID)
          | Except.ok newRoot =>
            if newRoot ≠ endState then
              VerifyResult.fault
                (ChunkFault.nonMatchingFinalState newRoot endState chIndex execResID)
            else
              VerifyResult.ok s.delta

/-- `ChunkVerifier.Verify`: refuses system chunks with an error, otherwise
verifies the collection's transactions. -/
def Verify (vc : VerifiableChunkData) : VerifyResult :=
  if vc.isSystemChunk then VerifyResult.internalError
  else verifyTransactionsInContext vc.chIndex vc.execResID vc.chunkDataPack vc.transactions vc.endState

/-- `ChunkVerifier.SystemChunkVerify`: refuses non-system chunks with an
error, otherwise verifies the single system transaction (`systemTx`, built
externally from the chain's service address). -/
def SystemChunkVerify (systemTx : Transaction) (vc : VerifiableChunkData) : VerifyResult :=
  if vc.isSystemChunk = false then VerifyResult.internalError
  else verifyTransactionsInContext vc.chIndex vc.execResID vc.chunkDataPack [systemTx] vc.endState

end Chunks

namespace Requester

/-- A chunk data pack request: the chunk identifier (also the request's
`ID()`) and the height of the chunk's block. -/
structure ChunkDataPackRequest where
  chunkID : Nat
  height : Nat
deriving DecidableEq, Repr

/-- The per-request retry history kept by the chunk-request mempool
(times and durations modelled as `Nat`). -/
structure RequestHistory where
  attempts : Nat
  lastAttempt : Nat
  retryAfter : Nat
deriving DecidableEq, Repr

/-- One entry of the pending-requests mempool. -/
structure PendingRequest where
  req : ChunkDataPackRequest
  history : RequestHistory
deriving DecidableEq, Repr

/-- Observable actions of the requester engine: notifying the handler that a
chunk's block is sealed, attempting a network publish of a
`ChunkDataRequest`, and delivering a chunk data pack to the handler. -/
inductive REvent where
  | notifiedSealed (chunkID : Nat)
  | publishAttempt (chunkID : Nat)
  | handled (chunkID : Nat)
deriving DecidableEq, Repr

/-- External collaborators of the requester: the retry qualifier
`reqQualifierFunc(attempts, lastAttempt, retryAfter)`, the history updater
`reqUpdaterFunc`, and the network conduit's publish outcome per chunk. -/
structure ReqEnv where
  qualifier : Nat → Nat → Nat → Bool
  updater : Nat → Nat → Nat → Nat × Nat × Nat
  publishOk : Nat → Bool

/-- Modelled from the spec: the chunk-request mempool implementation
(`mempool.ChunkRequests`, spec section 4.3) is not under src; `Rem` removes
the entry keyed by the chunk ID. -/
def remReq (pool : List PendingRequest) (chunkID : Nat) : List PendingRequest :=
  pool.filter (fun pr => pr.req.chunkID ≠ chunkID)

/-- Modelled from the spec: `RequestHistory(chunkID)` of the chunk-request
mempool returns the history when the request is present. -/
def requestHistory (pool : List PendingRequest) (chunkID : Nat) : Option RequestHistory :=
  (pool.find? (fun pr => pr.req.chunkID = chunkID)).map (fun pr => pr.history)

/-- Modelled from the spec: `UpdateRequestHistory(chunkID, updaterFn)` of the
chunk-request mempool atomically applies the updater to the stored history of
the entry keyed by the chunk ID. -/
def updateHistory (pool : List PendingRequest) (chunkID : Nat)
    (updater : Nat → Nat → Nat → Nat × Nat × Nat) : List PendingRequest :=
  pool.map (fun pr =>
    if pr.req.chunkID = chunkID then
      let t := updater pr.history.attempts pr.history.lastAttempt pr.history.retryAfter
      { pr with history := { attempts := t.1, lastAttempt := t.2.1, retryAfter := t.2.2 } }
    else pr)

/-- The chunk identifiers present in the pending-requests mempool. -/
def pendingIDs (pool : List PendingRequest) : List Nat :=
  pool.map (fun pr => pr.req.chunkID)

/-- `Engine.handleChunkDataPackRequest`: a request at sealed height is
dropped from the mempool with a sealed-notification to the handler; otherwise
the request is dispatched only when its history exists and the qualifier
admits it, and the history is updated through the updater only after the
publish succeeded. The returned event list records the engine's outward
actions. -/
def handleChunkDataPackRequest (env : ReqEnv) (pool : List PendingRequest)
    (request : ChunkDataPackRequest) (lastSealedHeight : Nat) :
    List PendingRequest × List REvent :=
  if request.height ≤ lastSealedHeight then
    (remReq pool request.chunkID, [REvent.notifiedSealed request.chunkID])
  else
    match requestHistory pool request.chunkID with
    | none => (pool, [])
    | some h =>
      if env.qualifier h.attempts h.lastAttempt h.retryAfter then
        if env.publishOk request.chunkID then
          (updateHistory pool request.chunkID env.updater, [REvent.publishAttempt request.chunkID])
        else
          (pool, [REvent.publishAttempt request.chunkID])
      else
        (pool, [])

/-- One step of the `onTimer` loop over the snapshot of pending requests:
handle the request against the current mempool and accumulate the events. -/
def onTimerStep (env : ReqEnv) (lastSealedHeight : Nat)
    (acc : List PendingRequest × List REvent) (pr : PendingRequest) :
    List PendingRequest × List REvent :=
  let r := handleChunkDataPackRequest env acc.1 pr.req lastSealedHeight
  (r.1, acc.2 ++ r.2)

/-- `Engine.onTimer`: snapshot all pending requests, then handle each against
the last sealed height read from protocol state. -/
def onTimer (env : ReqEnv) (pool : List PendingRequest) (lastSealedHeight : Nat) :
    List PendingRequest × List REvent :=
  pool.foldl (onTimerStep env lastSealedHeight) (pool, [])

/-- `Engine.handleChunkDataPack`: a received chunk data pack is delivered to
the handler only when removing its chunk ID from the pending-requests mempool
succeeded; otherwise the response is dropped. -/
def handleChunkDataPack (pool : List PendingRequest) (chunkID : Nat) :
    List PendingRequest × List REvent :=
  if pool.any (fun pr => pr.req.chunkID = chunkID) then
    (remReq pool chunkID, [REvent.handled chunkID])
  else
    (pool, [])

end Requester

namespace Builder

/-- The fields of an `IncorporatedResultSeal` that the builder's seal
selection reads: the identifier of the sealed result and the
`previousResultID` of its incorporated result. -/
structure BSeal where
  resultID : Nat
  previousResultID : Nat
deriving DecidableEq, Repr

/-- Modelled from the spec: the consensus payload builder (`Builder.BuildOn`,
spec section 4.8 step 3) is not under src, only its test suite is. Starting
from the last seal on the fork, walk forward by matching each candidate's
`previousResultID` to the last included seal's result ID; stop at the first
gap; include at most `maxSealCount` seals (the fuel). -/
def selectSeals (candidates : List BSeal) (lastSealedResultID : Nat) :
    Nat → List BSeal
  | 0 => []
  | n + 1 =>
    match candidates.find? (fun s => s.previousResultID = lastSealedResultID) with
    | none => []
    | some s => s :: selectSeals candidates s.resultID n

/-- The chain property of a seal list: each seal's `previousResultID` equals
the previous seal's result ID, anchored at the fork's last sealed result. -/
def sealChainFrom (lastSealedResultID : Nat) : List BSeal → Prop
  | [] => True
  | s :: rest => s.previousResultID = lastSealedResultID ∧ sealChainFrom s.resultID rest

instance sealChainFromDec : ∀ (last : Nat) (l : List BSeal), Decidable (sealChainFrom last l)
  | _, [] => Decidable.isTrue trivial
  | last, s :: rest =>
    haveI : Decidable (sealChainFrom s.resultID rest) := sealChainFromDec s.resultID rest
    inferInstanceAs (Decidable (s.previousResultID = last ∧ sealChainFrom s.resultID rest))

/-- A candidate receipt, reduced to the fields the builder's receipt
selection reads: the receipt identifier and its result identifier. -/
structure BReceipt where
  receiptID : Nat
  resultID : Nat
deriving DecidableEq, Repr

/-- Modelled from the spec: the consensus payload builder (`Builder.BuildOn`,
spec section 4.8 step 4) is not under src, only its test suite is. From the
reachable receipts, keep those not already incorporated on the fork, capped
at `maxReceiptCount`. -/
def selectReceipts (candidates : List BReceipt) (forkReceiptIDs : List Nat)
    (maxReceiptCount : Nat) : List BReceipt :=
  (candidates.filter (fun r => r.receiptID ∉ forkReceiptIDs)).take maxReceiptCount

/-- Modelled from the spec: one step of collecting payload results for the
builder (spec section 4.8 step 4, implementation not under src). The full
result of a selected receipt is added only if it was not previously
incorporated on the fork and not already added for an earlier selected
receipt. -/
def payloadResultsStep (forkResultIDs : List Nat) (acc : List Nat) (r : BReceipt) : List Nat :=
  if r.resultID ∉ forkResultIDs ∧ r.resultID ∉ acc then acc ++ [r.resultID] else acc

/-- Modelled from the spec: for each selected receipt the builder includes
the receipt meta always, and the full result only if the result was not
previously incorporated on the fork. Returns the result identifiers included
in the payload. -/
def payloadResults (selected : List BReceipt) (forkResultIDs : List Nat) : List Nat :=
  selected.foldl (payloadResultsStep forkResultIDs) []

end Builder

namespace Chunks

/-- Concrete verifiable chunk used to witness the soundness theorem: one
transaction reading the covered key 0 and writing 7 to it; the declared end
state matches the recomputed one. -/
def vcSoundW : VerifiableChunkData :=
  { isSystemChunk := false, chIndex := 3, execResID := 9,
    chunkDataPack := some { proofOk := true, proof := [(0, 5), (1, 6)] },
    transactions := [{ vmErr := false, ops := [Op.read 0, Op.write 0 7] }],
    endState := [(0, 7), (1, 6)] }

/-- Concrete verifiable chunk used to witness the missing-register theorem:
one transaction reading key 9, which the proof does not cover. -/
def vcMissW : VerifiableChunkData :=
  { isSystemChunk := false, chIndex := 3, execResID := 9,
    chunkDataPack := some { proofOk := true, proof := [(0, 5), (1, 6)] },
    transactions := [{ vmErr := false, ops := [Op.read 9] }],
    endState := [(0, 5), (1, 6)] }

/-- Concrete verifiable chunk used to witness the non-matching-final-state
theorem: one covered write whose recomputed root disagrees with the declared
end state. -/
def vcMismatchW : VerifiableChunkData :=
  { isSystemChunk := false, chIndex := 3, execResID := 9,
    chunkDataPack := some { proofOk := true, proof := [(0, 5), (1, 6)] },
    transactions := [{ vmErr := false, ops := [Op.write 0 7] }],
    endState := [(0, 8), (1, 6)] }

end Chunks

namespace Requester

/-- Concrete requester environment used by witnesses: every request is
qualified, the updater bumps the attempt counter, publishing succeeds. -/
def wEnv : ReqEnv :=
  { qualifier := fun _ _ _ => true,
    updater := fun a b c => (a + 1, b, c),
    publishOk := fun _ => true }

/-- Concrete requester environment whose network publish always fails. -/
def wEnvPubFail : ReqEnv :=
  { qualifier := fun _ _ _ => true,
    updater := fun a b c => (a + 1, b, c),
    publishOk := fun _ => false }

/-- Concrete pending-requests mempool used by witnesses: a single request
for chunk 5 at height 3. -/
def wPool : List PendingRequest :=
  [{ req := { chunkID := 5, height := 3 }, history := { attempts := 0, lastAttempt := 0, retryAfter := 0 } }]

/-- Concrete pending-requests mempool used by witnesses: a single request
for chunk 6 at height 20. -/
def wPoolHigh : List PendingRequest :=
  [{ req := { chunkID := 6, height := 20 }, history := { attempts := 1, lastAttempt := 2, retryAfter := 3 } }]

end Requester


namespace Approvals

/-- C1: `ByID(id)` returns a seal exactly when the wrapped pool holds it and
the receipts store successfully returns receipts among which at least two
distinct executor identities commit to the seal's underlying execution
result; in every other case (seal absent, storage read error, or fewer than
two distinct executors) it returns nothing. -/
theorem sealMempool_ByID_anti_equivocation
    (pool : List AIncorporatedResultSeal) (receiptsDB : ReceiptsDB) (id : Nat)
    (irs : AIncorporatedResultSeal) :
    ByID pool receiptsDB id = some irs ↔
      (sealsByID pool id = some irs ∧
       ∃ receipts, receiptsDB irs.incorporatedResult.blockID = Except.ok receipts ∧
         2 ≤ distinctExecutorCount receipts irs.incorporatedResult.resultID) := by
  constructor
  · intro h
    unfold ByID at h
    cases hf : sealsByID pool id with
    | none => rw [hf] at h; cases h
    | some s0 =>
      rw [hf] at h
      dsimp only at h
      by_cases hm : resultHasMultipleReceipts receiptsDB s0.incorporatedResult = true
      · rw [if_pos hm] at h
        obtain rfl : s0 = irs := by injection h
        refine ⟨rfl, ?_⟩
        unfold resultHasMultipleReceipts at hm
        cases hdb : receiptsDB s0.incorporatedResult.blockID with
        | error e => rw [hdb] at hm; cases hm
        | ok receipts =>
          rw [hdb] at hm
          exact ⟨receipts, rfl, of_decide_eq_true hm⟩
      · rw [if_neg hm] at h; cases h
  · rintro ⟨hf, receipts, hdb, hcount⟩
    unfold ByID
    rw [hf]
    dsimp only
    have hm : resultHasMultipleReceipts receiptsDB irs.incorporatedResult = true := by
      unfold resultHasMultipleReceipts
      rw [hdb]
      exact decide_eq_true hcount
    rw [if_pos hm]

end Approvals

namespace Chunks

/-- C2: if `Verify` returns a SPoCK secret with no fault and no error, then
the proof was accepted, no register read during execution touched a path
outside the chunk data pack's proof (the unknown-register-touch set is
empty), and applying the chunk view's register updates to the partial trie
built from the proof yields a root equal to the chunk's declared end state. -/
theorem chunkVerifier_verify_sound (vc : VerifiableChunkData) (spock : List (Key × Value))
    (h : Verify vc = VerifyResult.ok spock) :
    ∃ cdp st,
      vc.chunkDataPack = some cdp ∧ cdp.proofOk = true ∧
      runTransactions (coveredBy cdp.proof) vc.transactions = some st ∧
      st.unknown = [] ∧
      psmtSet cdp.proof st.delta = Except.ok vc.endState := by
  unfold Verify at h
  by_cases hsys : vc.isSystemChunk = true
  · rw [if_pos hsys] at h; cases h
  · rw [if_neg hsys] at h
    unfold verifyTransactionsInContext at h
    cases hcdp : vc.chunkDataPack with
    | none => rw [hcdp] at h; cases h
    | some cdp =>
      rw [hcdp] at h
      dsimp only at h
      by_cases hp : cdp.proofOk = false
      · rw [if_pos hp] at h; cases h
      · rw [if_neg hp] at h
        cases hrun : runTransactions (coveredBy cdp.proof) vc.transactions with
        | none => rw [hrun] at h; cases h
        | some st =>
          rw [hrun] at h
          dsimp only at h
          by_cases hu : st.unknown ≠ []
          · rw [if_pos hu] at h; cases h
          · rw [if_neg hu] at h
            cases hset : psmtSet cdp.proof st.delta with
            | error keys => rw [hset] at h; cases h
            | ok newRoot =>
              rw [hset] at h
              dsimp only at h
              by_cases hne : newRoot ≠ vc.endState
              · rw [if_pos hne] at h; cases h
              · refine ⟨cdp, st, rfl, eq_true_of_ne_false hp, hrun, not_ne_iff.mp hu, ?_⟩
                rw [hset, not_ne_iff.mp hne]

/-- C2 witness: a chunk with one transaction that reads and rewrites the
covered register 0, whose declared end state matches the recomputed root. -/
theorem chunkVerifier_verify_sound_witness :
    ∃ cdp st,
      vcSoundW.chunkDataPack = some cdp ∧ cdp.proofOk = true ∧
      runTransactions (coveredBy cdp.proof) vcSoundW.transactions = some st ∧
      st.unknown = [] ∧
      psmtSet cdp.proof st.delta = Except.ok vcSoundW.endState :=
  chunkVerifier_verify_sound vcSoundW [(0, 7)] (by decide)

/-- C3: `Verify` refuses a system chunk with an error (no fault, no SPoCK),
and `SystemChunkVerify` refuses a non-system chunk with an error. -/
theorem chunkVerifier_rejects_wrong_chunk_kind (systemTx : Transaction)
    (vc : VerifiableChunkData) :
    (vc.isSystemChunk = true → Verify vc = VerifyResult.internalError) ∧
    (vc.isSystemChunk = false → SystemChunkVerify systemTx vc = VerifyResult.internalError) := by
  constructor
  · intro h
    unfold Verify
    rw [if_pos h]
  · intro h
    unfold SystemChunkVerify
    rw [if_pos h]

/-- C3 witness: `Verify` on a system chunk and `SystemChunkVerify` on a
non-system chunk each return the internal error. -/
theorem chunkVerifier_rejects_wrong_chunk_kind_witness :
    Verify { vcSoundW with isSystemChunk := true } = VerifyResult.internalError ∧
    SystemChunkVerify { vmErr := false, ops := [] } vcSoundW = VerifyResult.internalError :=
  ⟨(chunkVerifier_rejects_wrong_chunk_kind { vmErr := false, ops := [] }
      { vcSoundW with isSystemChunk := true }).1 (by decide),
   (chunkVerifier_rejects_wrong_chunk_kind { vmErr := false, ops := [] } vcSoundW).2 (by decide)⟩

/-- C4: if the execution of a non-system chunk completes and some register
read reached the partial trie outside the proof, the verifier returns the
missing-register-touch fault carrying exactly the uncovered register keys,
with no SPoCK secret and no error. -/
theorem chunkVerifier_missing_register_touch (vc : VerifiableChunkData)
    (cdp : ChunkDataPack) (st : ExecState)
    (hsys : vc.isSystemChunk = false)
    (hcdp : vc.chunkDataPack = some cdp)
    (hp : cdp.proofOk = true)
    (hrun : runTransactions (coveredBy cdp.proof) vc.transactions = some st)
    (hu : st.unknown ≠ []) :
    Verify vc = VerifyResult.fault
      (ChunkFault.missingRegisterTouch st.unknown vc.chIndex vc.execResID) := by
  unfold Verify verifyTransactionsInContext
  rw [hsys]
  simp only [Bool.false_eq_true, if_false]
  rw [hcdp]
  dsimp only
  rw [hp]
  simp only [Bool.true_eq_false, if_false]
  rw [hrun]
  dsimp only
  rw [if_pos hu]

/-- C4 witness: a chunk reading register 9, which the proof does not cover,
faults with the missing-register-touch fault listing key 9. -/
theorem chunkVerifier_missing_register_touch_witness :
    Verify vcMissW = VerifyResult.fault (ChunkFault.missingRegisterTouch [9] 3 9) :=
  chunkVerifier_missing_register_touch vcMissW
    { proofOk := true, proof := [(0, 5), (1, 6)] } { delta := [], unknown := [9] }
    (by decide) (by decide) (by decide) (by decide) (by decide)

/-- C5: if the execution of a non-system chunk touches only proof-covered
registers (empty unknown set, update accepted by the partial trie) and the
recomputed root differs from the declared end state, the verifier returns the
non-matching-final-state fault carrying both commitments, with a nil error. -/
theorem chunkVerifier_non_matching_final_state (vc : VerifiableChunkData)
    (cdp : ChunkDataPack) (st : ExecState) (newRoot : StateCommitment)
    (hsys : vc.isSystemChunk = false)
    (hcdp : vc.chunkDataPack = some cdp)
    (hp : cdp.proofOk = true)
    (hrun : runTransactions (coveredBy cdp.proof) vc.transactions = some st)
    (hu : st.unknown = [])
    (hset : psmtSet cdp.proof st.delta = Except.ok newRoot)
    (hne : newRoot ≠ vc.endState) :
    Verify vc = VerifyResult.fault
      (ChunkFault.nonMatchingFinalState newRoot vc.endState vc.chIndex vc.execResID) := by
  unfold Verify verifyTransactionsInContext
  rw [hsys]
  simp only [Bool.false_eq_true, if_false]
  rw [hcdp]
  dsimp only
  rw [hp]
  simp only [Bool.true_eq_false, if_false]
  rw [hrun]
  dsimp only
  rw [if_neg (not_ne_iff.mpr hu)]
  rw [hset]
  dsimp only
  rw [if_pos hne]

/-- C5 witness: a chunk writing 7 to the covered register 0 while the
declared end state claims 8 faults with the non-matching-final-state fault
carrying the recomputed and the declared commitments. -/
theorem chunkVerifier_non_matching_final_state_witness :
    Verify vcMismatchW = VerifyResult.fault
      (ChunkFault.nonMatchingFinalState [(0, 7), (1, 6)] [(0, 8), (1, 6)] 3 9) :=
  chunkVerifier_non_matching_final_state vcMismatchW
    { proofOk := true, proof := [(0, 5), (1, 6)] } { delta := [(0, 7)], unknown := [] }
    [(0, 7), (1, 6)]
    (by decide) (by decide) (by decide) (by decide) (by decide) rfl (by decide)

end Chunks

namespace Requester

/-- Helper: updating a request history leaves the set of pending chunk IDs
unchanged. -/
theorem pendingIDs_updateHistory (pool : List PendingRequest) (c : Nat)
    (u : Nat → Nat → Nat → Nat × Nat × Nat) :
    pendingIDs (updateHistory pool c u) = pendingIDs pool := by
  induction pool with
  | nil => rfl
  | cons pr rest ih =>
    simp only [updateHistory, pendingIDs, List.map_cons] at *
    by_cases h : pr.req.chunkID = c
    · rw [if_pos h]
      simp only [ih]
    · rw [if_neg h]
      simp only [ih]

/-- Helper: after removing a chunk ID from the mempool, it is no longer
pending. -/
theorem not_mem_pendingIDs_remReq (pool : List PendingRequest) (c : Nat) :
    c ∉ pendingIDs (remReq pool c) := by
  intro h
  rcases List.mem_map.mp h with ⟨pr, hmem, hid⟩
  have hne := List.of_mem_filter hmem
  simp only [decide_eq_true_eq] at hne
  exact hne hid

/-- Helper: removal only shrinks the set of pending chunk IDs. -/
theorem pendingIDs_remReq_subset (pool : List PendingRequest) (c : Nat) :
    pendingIDs (remReq pool c) ⊆ pendingIDs pool := by
  intro x hx
  rcases List.mem_map.mp hx with ⟨pr, hmem, hid⟩
  exact List.mem_map.mpr ⟨pr, List.mem_of_mem_filter hmem, hid⟩

/-- Helper: handling a chunk data pack request never adds a chunk ID to the
pending-requests mempool. -/
theorem handleChunkDataPackRequest_ids_subset (env : ReqEnv) (pool : List PendingRequest)
    (r : ChunkDataPackRequest) (sealed : Nat) (c : Nat)
    (hc : c ∉ pendingIDs pool) :
    c ∉ pendingIDs (handleChunkDataPackRequest env pool r sealed).1 := by
  intro hmem
  unfold handleChunkDataPackRequest at hmem
  by_cases hh : r.height ≤ sealed
  · rw [if_pos hh] at hmem
    exact hc (pendingIDs_remReq_subset pool r.chunkID hmem)
  · rw [if_neg hh] at hmem
    cases hq : requestHistory pool r.chunkID with
    | none => rw [hq] at hmem; exact hc hmem
    | some hist =>
      rw [hq] at hmem
      dsimp only at hmem
      by_cases hqual : env.qualifier hist.attempts hist.lastAttempt hist.retryAfter = true
      · rw [if_pos hqual] at hmem
        by_cases hpub : env.publishOk r.chunkID = true
        · rw [if_pos hpub] at hmem
          rw [pendingIDs_updateHistory] at hmem
          exact hc hmem
        · rw [if_neg hpub] at hmem; exact hc hmem
      · rw [if_neg hqual] at hmem; exact hc hmem

/-- Helper: a chunk ID absent from the mempool stays absent through the
remainder of a timer tick. -/
theorem onTimer_fold_ids (env : ReqEnv) (sealed : Nat) (L : List PendingRequest) :
    ∀ p evs c, c ∉ pendingIDs p →
      c ∉ pendingIDs (L.foldl (onTimerStep env sealed) (p, evs)).1 := by
  induction L with
  | nil => intro p evs c hc; exact hc
  | cons q L ih =>
    intro p evs c hc
    simp only [List.foldl_cons, onTimerStep]
    exact ih _ _ c (handleChunkDataPackRequest_ids_subset env p q.req sealed c hc)

/-- Helper: events already emitted persist through the remainder of a timer
tick. -/
theorem onTimer_fold_events_mono (env : ReqEnv) (sealed : Nat) (L : List PendingRequest) :
    ∀ p evs x, x ∈ evs → x ∈ (L.foldl (onTimerStep env sealed) (p, evs)).2 := by
  induction L with
  | nil => intro p evs x hx; exact hx
  | cons q L ih =>
    intro p evs x hx
    simp only [List.foldl_cons, onTimerStep]
    exact ih _ _ x (List.mem_append_left _ hx)

/-- Helper: every pending request at sealed height produces a
sealed-notification during the tick. -/
theorem onTimer_fold_notifies (env : ReqEnv) (sealed : Nat) (L : List PendingRequest) :
    ∀ p evs pr, pr ∈ L → pr.req.height ≤ sealed →
      REvent.notifiedSealed pr.req.chunkID ∈ (L.foldl (onTimerStep env sealed) (p, evs)).2 := by
  induction L with
  | nil => intro p evs pr h; cases h
  | cons q L ih =>
    intro p evs pr hmem hh
    rcases List.mem_cons.mp hmem with heq | hmem'
    · subst heq
      simp only [List.foldl_cons, onTimerStep]
      apply onTimer_fold_events_mono
      have hev : (handleChunkDataPackRequest env p pr.req sealed).2 =
          [REvent.notifiedSealed pr.req.chunkID] := by
        unfold handleChunkDataPackRequest
        rw [if_pos hh]
      rw [hev]
      exact List.mem_append_right _ (List.mem_singleton.mpr rfl)
    · simp only [List.foldl_cons, onTimerStep]
      exact ih _ _ pr hmem' hh

/-- Helper: handling a request publishes nothing for chunk `c` when the
request is at sealed height or concerns a different chunk. -/
theorem handleChunkDataPackRequest_no_publish (env : ReqEnv) (p : List PendingRequest)
    (r : ChunkDataPackRequest) (sealed : Nat) (c : Nat)
    (hcond : r.height ≤ sealed ∨ r.chunkID ≠ c) :
    REvent.publishAttempt c ∉ (handleChunkDataPackRequest env p r sealed).2 := by
  intro hmem
  unfold handleChunkDataPackRequest at hmem
  by_cases hh : r.height ≤ sealed
  · rw [if_pos hh] at hmem
    simp at hmem
  · rw [if_neg hh] at hmem
    have hne : r.chunkID ≠ c := hcond.resolve_left hh
    cases hq : requestHistory p r.chunkID with
    | none => rw [hq] at hmem; simp at hmem
    | some hist =>
      rw [hq] at hmem
      dsimp only at hmem
      by_cases hqual : env.qualifier hist.attempts hist.lastAttempt hist.retryAfter = true
      · rw [if_pos hqual] at hmem
        by_cases hpub : env.publishOk r.chunkID = true
        · rw [if_pos hpub] at hmem
          simp at hmem
          exact hne hmem.symm
        · rw [if_neg hpub] at hmem
          simp at hmem
          exact hne hmem.symm
      · rw [if_neg hqual] at hmem; simp at hmem

/-- Helper: a tick publishes nothing for chunk `c` when every pending request
for chunk `c` in the remaining snapshot is at sealed height. -/
theorem onTimer_fold_no_publish (env : ReqEnv) (sealed : Nat) (L : List PendingRequest) (c : Nat) :
    (∀ q ∈ L, q.req.chunkID = c → q.req.height ≤ sealed) →
    ∀ p evs, REvent.publishAttempt c ∉ evs →
      REvent.publishAttempt c ∉ (L.foldl (onTimerStep env sealed) (p, evs)).2 := by
  induction L with
  | nil => intro _ p evs h; exact h
  | cons q L ih =>
    intro hall p evs hevs
    simp only [List.foldl_cons, onTimerStep]
    apply ih (fun x hx hid => hall x (List.mem_cons_of_mem _ hx) hid)
    intro hmem
    rcases List.mem_append.mp hmem with h1 | h2
    · exact hevs h1
    · refine handleChunkDataPackRequest_no_publish env p q.req sealed c ?_ h2
      by_cases hid : q.req.chunkID = c
      · exact Or.inl (hall q (List.mem_cons_self q L) hid)
      · exact Or.inr hid

/-- Helper: a pending request at sealed height is removed during the tick and
never re-added. -/
theorem onTimer_fold_removes (env : ReqEnv) (sealed : Nat) (L : List PendingRequest) :
    ∀ p evs pr, pr ∈ L → pr.req.height ≤ sealed →
      pr.req.chunkID ∉ pendingIDs (L.foldl (onTimerStep env sealed) (p, evs)).1 := by
  induction L with
  | nil => intro p evs pr h; cases h
  | cons q L ih =>
    intro p evs pr hmem hh
    rcases List.mem_cons.mp hmem with heq | hmem'
    · subst heq
      simp only [List.foldl_cons, onTimerStep]
      apply onTimer_fold_ids
      have hpool : (handleChunkDataPackRequest env p pr.req sealed).1 =
          remReq p pr.req.chunkID := by
        unfold handleChunkDataPackRequest
        rw [if_pos hh]
      rw [hpool]
      exact not_mem_pendingIDs_remReq p pr.req.chunkID
    · simp only [List.foldl_cons, onTimerStep]
      exact ih _ _ pr hmem' hh

/-- C6: on a timer tick, every pending request whose block height is at most
the last sealed height is removed from the pending-requests mempool, the
handler is notified that the chunk belongs to a sealed block, and no network
publish is attempted for that chunk during the tick. -/
theorem requester_onTimer_drops_sealed_requests (env : ReqEnv) (pool : List PendingRequest)
    (lastSealedHeight : Nat) (pr : PendingRequest)
    (hnodup : (pendingIDs pool).Nodup)
    (hmem : pr ∈ pool)
    (hsealed : pr.req.height ≤ lastSealedHeight) :
    pr.req.chunkID ∉ pendingIDs (onTimer env pool lastSealedHeight).1 ∧
    REvent.notifiedSealed pr.req.chunkID ∈ (onTimer env pool lastSealedHeight).2 ∧
    REvent.publishAttempt pr.req.chunkID ∉ (onTimer env pool lastSealedHeight).2 := by
  refine ⟨?_, ?_, ?_⟩
  · exact onTimer_fold_removes env lastSealedHeight pool pool [] pr hmem hsealed
  · exact onTimer_fold_notifies env lastSealedHeight pool pool [] pr hmem hsealed
  · apply onTimer_fold_no_publish env lastSealedHeight pool pr.req.chunkID ?_ pool []
      (List.not_mem_nil _)
    intro q hq hid
    have hq_eq : q = pr := by
      have hinj := List.inj_on_of_nodup_map (f := fun x : PendingRequest => x.req.chunkID)
        (by simpa [pendingIDs] using hnodup)
      exact hinj hq hmem hid
    rw [hq_eq]
    exact hsealed

/-- C6 witness: a single pending request for chunk 5 at height 3 is dropped,
notified as sealed, and not published when the last sealed height is 10. -/
theorem requester_onTimer_drops_sealed_requests_witness :
    (5 : Nat) ∉ pendingIDs (onTimer wEnv wPool 10).1 ∧
    REvent.notifiedSealed 5 ∈ (onTimer wEnv wPool 10).2 ∧
    REvent.publishAttempt 5 ∉ (onTimer wEnv wPool 10).2 :=
  requester_onTimer_drops_sealed_requests wEnv wPool 10
    { req := { chunkID := 5, height := 3 },
      history := { attempts := 0, lastAttempt := 0, retryAfter := 0 } }
    (by decide) (by decide) (by decide)

/-- C7: a received chunk data pack is delivered to the handler exactly when
its chunk ID was pending and its removal succeeded, and two deliveries of the
same chunk ID (with no intervening re-request) invoke the handler exactly
once. -/
theorem requester_response_delivered_exactly_once (pool : List PendingRequest) (c : Nat) :
    ((handleChunkDataPack pool c).2 = [REvent.handled c] ↔ c ∈ pendingIDs pool) ∧
    (c ∈ pendingIDs pool →
      (((handleChunkDataPack pool c).2 ++
        (handleChunkDataPack (handleChunkDataPack pool c).1 c).2).count (REvent.handled c)) = 1) := by
  have hany : (pool.any (fun pr => pr.req.chunkID = c) = true) ↔ c ∈ pendingIDs pool := by
    constructor
    · intro ha
      rcases List.any_eq_true.mp ha with ⟨pr, hpr, hid⟩
      simp only [decide_eq_true_eq] at hid
      exact List.mem_map.mpr ⟨pr, hpr, hid⟩
    · intro hm
      rcases List.mem_map.mp hm with ⟨pr, hpr, hid⟩
      exact List.any_eq_true.mpr ⟨pr, hpr, by simp [hid]⟩
  constructor
  · constructor
    · intro h
      by_cases ha : pool.any (fun pr => pr.req.chunkID = c) = true
      · exact hany.mp ha
      · unfold handleChunkDataPack at h
        rw [if_neg ha] at h
        cases h
    · intro h
      unfold handleChunkDataPack
      rw [if_pos (hany.mpr h)]
  · intro h
    have h1 : handleChunkDataPack pool c = (remReq pool c, [REvent.handled c]) := by
      unfold handleChunkDataPack
      rw [if_pos (hany.mpr h)]
    have h2 : (handleChunkDataPack (remReq pool c) c).2 = [] := by
      unfold handleChunkDataPack
      have : ¬ ((remReq pool c).any (fun pr => pr.req.chunkID = c) = true) := by
        intro ha
        have hmem : c ∈ pendingIDs (remReq pool c) := by
          have := hany
          rcases List.any_eq_true.mp ha with ⟨pr, hpr, hid⟩
          simp only [decide_eq_true_eq] at hid
          exact List.mem_map.mpr ⟨pr, hpr, hid⟩
        exact not_mem_pendingIDs_remReq pool c hmem
      rw [if_neg this]
    rw [h1]
    simp only [h2]
    simp

/-- C7 witness: with chunk 5 pending, the first delivery invokes the handler
and the second is dropped, for exactly one handler call. -/
theorem requester_response_delivered_exactly_once_witness :
    ((handleChunkDataPack wPool 5).2 = [REvent.handled 5] ↔ (5 : Nat) ∈ pendingIDs wPool) ∧
    (((handleChunkDataPack wPool 5).2 ++
      (handleChunkDataPack (handleChunkDataPack wPool 5).1 5).2).count (REvent.handled 5)) = 1 :=
  ⟨(requester_response_delivered_exactly_once wPool 5).1,
   (requester_response_delivered_exactly_once wPool 5).2 (by decide)⟩

/-- C10: for a request above sealed height, a failed network publish leaves
the pending-requests mempool (hence the request's attempts, lastAttempt and
retryAfter) unchanged, and any change to the mempool comes from the updater
function after a successful publish. -/
theorem requester_history_unchanged_on_publish_failure (env : ReqEnv)
    (pool : List PendingRequest) (r : ChunkDataPackRequest) (sealed : Nat)
    (hh : sealed < r.height) :
    (env.publishOk r.chunkID = false →
      (handleChunkDataPackRequest env pool r sealed).1 = pool) ∧
    ((handleChunkDataPackRequest env pool r sealed).1 ≠ pool →
      env.publishOk r.chunkID = true ∧
      (handleChunkDataPackRequest env pool r sealed).1 =
        updateHistory pool r.chunkID env.updater) := by
  have hnot : ¬ r.height ≤ sealed := not_le.mpr hh
  constructor
  · intro hpub
    unfold handleChunkDataPackRequest
    rw [if_neg hnot]
    cases hq : requestHistory pool r.chunkID with
    | none => rfl
    | some hist =>
      dsimp only
      by_cases hqual : env.qualifier hist.attempts hist.lastAttempt hist.retryAfter = true
      · rw [if_pos hqual, hpub]
        simp
      · rw [if_neg hqual]
  · intro hne
    unfold handleChunkDataPackRequest at hne ⊢
    rw [if_neg hnot] at hne ⊢
    cases hq : requestHistory pool r.chunkID with
    | none =>
      rw [hq] at hne
      exact absurd rfl hne
    | some hist =>
      rw [hq] at hne
      dsimp only at hne ⊢
      by_cases hqual : env.qualifier hist.attempts hist.lastAttempt hist.retryAfter = true
      · rw [if_pos hqual] at hne ⊢
        by_cases hpub : env.publishOk r.chunkID = true
        · rw [if_pos hpub]
          exact ⟨hpub, rfl⟩
        · rw [if_neg hpub] at hne
          exact absurd rfl hne
      · rw [if_neg hqual] at hne
        exact absurd rfl hne

/-- C10 witness: with a pending request for chunk 6 at height 20 and sealed
height 10, a failing publish leaves the mempool unchanged. -/
theorem requester_history_unchanged_on_publish_failure_witness :
    (handleChunkDataPackRequest wEnvPubFail wPoolHigh { chunkID := 6, height := 20 } 10).1 =
      wPoolHigh :=
  (requester_history_unchanged_on_publish_failure wEnvPubFail wPoolHigh
    { chunkID := 6, height := 20 } 10 (by decide)).1 (by decide)

end Requester

namespace Builder

/-- C8: the seals selected for a payload form a chain continuing from the
fork's last sealed result (each seal's `previousResultID` equals the previous
seal's result ID), at most `maxSealCount` seals are included, and if the
immediately next seal is missing from the candidates the selection is
empty. -/
theorem builder_seal_selection_chain (cands : List BSeal) (last : Nat) (maxSealCount : Nat) :
    sealChainFrom last (selectSeals cands last maxSealCount) ∧
    (selectSeals cands last maxSealCount).length ≤ maxSealCount ∧
    (cands.find? (fun s => s.previousResultID = last) = none →
      selectSeals cands last maxSealCount = []) := by
  refine ⟨?_, ?_, ?_⟩
  · induction maxSealCount generalizing last with
    | zero => exact trivial
    | succ n ih =>
      unfold selectSeals
      cases hf : cands.find? (fun s => s.previousResultID = last) with
      | none => exact trivial
      | some s =>
        show s.previousResultID = last ∧ sealChainFrom s.resultID (selectSeals cands s.resultID n)
        refine ⟨?_, ih s.resultID⟩
        have hp := List.find?_some hf
        simpa using hp
  · induction maxSealCount generalizing last with
    | zero => simp [selectSeals]
    | succ n ih =>
      unfold selectSeals
      cases hf : cands.find? (fun s => s.previousResultID = last) with
      | none => simp
      | some s =>
        simp only [List.length_cons]
        exact Nat.succ_le_succ (ih s.resultID)
  · intro hf
    cases maxSealCount with
    | zero => rfl
    | succ n =>
      unfold selectSeals
      rw [hf]

/-- C8 witness: with the immediately next seal missing from the candidates,
the selection is empty, the chain property holds vacuously, and the cap is
respected. -/
theorem builder_seal_selection_chain_witness :
    sealChainFrom 10 (selectSeals [{ resultID := 12, previousResultID := 11 }] 10 3) ∧
    (selectSeals [{ resultID := 12, previousResultID := 11 }] 10 3).length ≤ 3 ∧
    selectSeals [{ resultID := 12, previousResultID := 11 }] 10 3 = [] :=
  ⟨(builder_seal_selection_chain [{ resultID := 12, previousResultID := 11 }] 10 3).1,
   (builder_seal_selection_chain [{ resultID := 12, previousResultID := 11 }] 10 3).2.1,
   (builder_seal_selection_chain [{ resultID := 12, previousResultID := 11 }] 10 3).2.2 (by decide)⟩

/-- Helper: one collection step only extends the accumulated results. -/
theorem payloadResultsStep_subset (f : List Nat) (acc : List Nat) (r : BReceipt) :
    acc ⊆ payloadResultsStep f acc r := by
  unfold payloadResultsStep
  by_cases h : r.resultID ∉ f ∧ r.resultID ∉ acc
  · rw [if_pos h]
    exact List.subset_append_left _ _
  · rw [if_neg h]
    exact List.Subset.refl _

/-- Helper: collecting payload results only extends the accumulator. -/
theorem payloadResults_fold_subset (f : List Nat) (L : List BReceipt) :
    ∀ acc, acc ⊆ L.foldl (payloadResultsStep f) acc := by
  induction L with
  | nil => intro acc; exact List.Subset.refl _
  | cons r L ih =>
    intro acc
    simp only [List.foldl_cons]
    exact (payloadResultsStep_subset f acc r).trans (ih _)

/-- Helper: every collected payload result is absent from the fork's
already-incorporated results. -/
theorem payloadResults_fold_sound (f : List Nat) (L : List BReceipt) :
    ∀ acc, (∀ x ∈ acc, x ∉ f) →
      ∀ rid ∈ L.foldl (payloadResultsStep f) acc, rid ∉ f := by
  induction L with
  | nil => intro acc hacc; exact hacc
  | cons r L ih =>
    intro acc hacc
    simp only [List.foldl_cons]
    apply ih
    intro x hx
    unfold payloadResultsStep at hx
    by_cases h : r.resultID ∉ f ∧ r.resultID ∉ acc
    · rw [if_pos h] at hx
      rcases List.mem_append.mp hx with h1 | h2
      · exact hacc x h1
      · rw [List.mem_singleton.mp h2]
        exact h.1
    · rw [if_neg h] at hx
      exact hacc x hx

/-- Helper: a selected receipt whose result is not already on the fork gets
its result collected. -/
theorem payloadResults_fold_complete (f : List Nat) (L : List BReceipt) :
    ∀ acc r, r ∈ L → r.resultID ∉ f →
      r.resultID ∈ L.foldl (payloadResultsStep f) acc := by
  induction L with
  | nil => intro acc r h; cases h
  | cons q L ih =>
    intro acc r hmem hf
    simp only [List.foldl_cons]
    rcases List.mem_cons.mp hmem with heq | hmem'
    · subst heq
      have hstep : r.resultID ∈ payloadResultsStep f acc r := by
        unfold payloadResultsStep
        by_cases hacc : r.resultID ∈ acc
        · rw [if_neg (fun hcond => hcond.2 hacc)]
          exact hacc
        · rw [if_pos ⟨hf, hacc⟩]
          exact List.mem_append_right _ (List.mem_singleton.mpr rfl)
      exact payloadResults_fold_subset f L _ hstep
    · exact ih _ r hmem' hf

/-- C9: the payload contains no receipt already incorporated on the fork,
every full result placed in the payload is for a result not previously
incorporated on the fork, and a selected receipt whose result is fresh gets
its full result included (otherwise only its meta appears). -/
theorem builder_receipt_selection_dedup (cands : List BReceipt)
    (forkReceiptIDs forkResultIDs : List Nat) (maxReceiptCount : Nat) :
    (∀ r ∈ selectReceipts cands forkReceiptIDs maxReceiptCount,
        r.receiptID ∉ forkReceiptIDs) ∧
    (∀ rid ∈ payloadResults (selectReceipts cands forkReceiptIDs maxReceiptCount) forkResultIDs,
        rid ∉ forkResultIDs) ∧
    (∀ r ∈ selectReceipts cands forkReceiptIDs maxReceiptCount,
        r.resultID ∉ forkResultIDs →
        r.resultID ∈ payloadResults (selectReceipts cands forkReceiptIDs maxReceiptCount)
          forkResultIDs) := by
  refine ⟨?_, ?_, ?_⟩
  · intro r hr
    have h1 : r ∈ cands.filter (fun r => r.receiptID ∉ forkReceiptIDs) :=
      List.take_subset _ _ hr
    have h2 := List.of_mem_filter h1
    simpa using h2
  · intro rid hrid
    exact payloadResults_fold_sound forkResultIDs _ [] (by intro x hx; cases hx) rid hrid
  · intro r hr hf
    exact payloadResults_fold_complete forkResultIDs _ [] r hr hf

/-- C9 witness: a single fresh candidate receipt is selected, its receipt ID
is not on the fork, and its full result is included exactly because the
result is fresh. -/
theorem builder_receipt_selection_dedup_witness :
    ({ receiptID := 1, resultID := 101 } : BReceipt).receiptID ∉ [7] ∧
    (101 : Nat) ∉ [102] ∧
    (101 : Nat) ∈ payloadResults (selectReceipts [{ receiptID := 1, resultID := 101 }] [7] 5) [102] :=
  ⟨(builder_receipt_selection_dedup [{ receiptID := 1, resultID := 101 }] [7] [102] 5).1
      { receiptID := 1, resultID := 101 } (by decide),
   (builder_receipt_selection_dedup [{ receiptID := 1, resultID := 101 }] [7] [102] 5).2.1
      101 (by decide),
   (builder_receipt_selection_dedup [{ receiptID := 1, resultID := 101 }] [7] [102] 5).2.2
      { receiptID := 1, resultID := 101 } (by decide) (by decide)⟩

end Builder
